import Mathlib

/-!
Verification of the object-storage core of a minimal content-addressable
object store (a small git reimplementation, `src/main.go`).

Bytes are modelled as `Nat` (values below 256 in practice; none of the
properties verified here depend on an upper bound).  Strings entering the
byte level are ASCII throughout, so `String.data.map Char.toNat` is the
byte sequence the Go code produces.  The zlib compression applied on disk
and the SHA-1 digest are external-library calls; they are abstracted as
function parameters (`compress`, `decompress`, `digest`), with the zlib
round-trip `decompress (compress b) = some b` taken as a hypothesis where
a claim needs it.  The on-disk object directory is modelled as an
association list from the hex object name to the stored (compressed)
bytes; `os.OpenFile(..., O_EXCL, ...)` failing with `ErrExist` is the
`lookup = some` branch.
-/

namespace DiyGit

/-- ASCII bytes of a string (`[]byte(s)` in the Go source). -/
def strBytes (s : String) : List Nat := s.data.map Char.toNat

/-- Bytes back to a string (`string(b)` in the Go source, ASCII case). -/
def bytesToStr (l : List Nat) : String := String.mk (l.map Char.ofNat)

/-- Fuel-driven accumulator loop producing the decimal digit bytes of `n`
in front of `acc`.  The fuel `n + 1` always suffices. -/
def natDecimalAux : Nat → Nat → List Nat → List Nat
  | 0, _, acc => acc
  | fuel + 1, n, acc =>
    if n < 10 then (48 + n) :: acc
    else natDecimalAux fuel (n / 10) ((48 + n % 10) :: acc)

/-- Decimal digit bytes of `n`: the model of `strconv.FormatInt(n, 10)` /
`fmt.Sprint(n)` for the nonnegative integers the source formats. -/
def natDecimal (n : Nat) : List Nat := natDecimalAux (n + 1) n []

/-- One lowercase hex digit character (`encoding/hex` alphabet). -/
def hexDigit (n : Nat) : Char := Char.ofNat (if n < 10 then 48 + n else 87 + n)

/-- Hex characters of a byte list, high nibble first. -/
def hexChars : List Nat → List Char
  | [] => []
  | b :: bs => hexDigit (b / 16) :: hexDigit (b % 16) :: hexChars bs

/-- `hex.EncodeToString` on a digest. -/
def hexEncode (bs : List Nat) : String := String.mk (hexChars bs)

/-- `bytes.Cut(xs, [sep])`: the part before the first `sep`, the part
after it, and whether `sep` occurred. -/
def goCut : List Nat → Nat → List Nat × List Nat × Bool
  | [], _ => ([], [], false)
  | x :: xs, sep =>
    if x = sep then ([], xs, true)
    else
      let r := goCut xs sep
      (x :: r.1, r.2.1, r.2.2)

/-- The three object kinds the source ever writes (the string literals
passed to the header `fmt.Sprintf`s in `WriteBlob`, `WriteTree`,
`CommitTree`). -/
inductive Kind where
  | blob
  | tree
  | commit
deriving DecidableEq

/-- The header keyword for each kind. -/
def Kind.str : Kind → String
  | .blob => "blob"
  | .tree => "tree"
  | .commit => "commit"

/-- Canonical object encoding `"<kind> <len>" NUL <payload>`, the bytes
each write path accumulates in its buffer before hashing
(`"blob " + objectSize + "\x00"` + contents, and the analogous tree and
commit headers). -/
def encode (k : Kind) (payload : List Nat) : List Nat :=
  strBytes k.str ++ [32] ++ natDecimal payload.length ++ [0] ++ payload

/-- The on-disk object directory: hex object name ↦ stored file bytes. -/
abbrev Store := List (String × List Nat)

/-- Lookup in the object directory (does `.git/objects/<n[:2]>/<n[2:]>`
exist). -/
def Store.find (s : Store) (name : String) : Option (List Nat) :=
  List.lookup name s

/-- `WriteObject` (src/main.go:161-186): exclusive create of the object
file.  When `O_EXCL` fails with `fs.ErrExist` the function returns
normally without touching the store; otherwise the compressed contents
are written under `name`.  I/O failures other than "already exists"
terminate the process and are outside this model. -/
def writeObject (name : String) (contents : List Nat) (s : Store) : Store :=
  match s.find name with
  | some _ => s
  | none => (name, contents) :: s

/-- The shared write path of `WriteBlob` / `WriteTree` / `CommitTree`:
build the canonical bytes, hash them (`GetSha`), then store the
compressed canonical bytes under the hex digest via `WriteObject`.
Returns the digest and the updated store. -/
def putObject (digest : List Nat → List Nat) (compress : List Nat → List Nat)
    (k : Kind) (payload : List Nat) (s : Store) : List Nat × Store :=
  let canonical := encode k payload
  let id := digest canonical
  (id, writeObject (hexEncode id) (compress canonical) s)

/-- `WriteBlob` (src/main.go:123-149) on a file whose contents are
`payload`: the header length is `fileinfo.Size()`, which for the regular
file just read equals the number of content bytes. -/
def writeBlob (digest : List Nat → List Nat) (compress : List Nat → List Nat)
    (payload : List Nat) (s : Store) : List Nat × Store :=
  putObject digest compress .blob payload s

/-- The spec's error kinds for the read path (§7): the source prints a
distinct diagnostic and exits for each; `NotFound` is the `os.Open`
failure, `DecodeError` covers the zlib failure and the header scan
hitting end-of-stream before a NUL. -/
inductive GitError where
  | NotFound
  | DecodeError
deriving DecidableEq

/-- `CatFile` (src/main.go:79-110): open the object file by id, inflate
it, consume bytes up to and including the first NUL (exiting with an
error if the stream ends first), and emit the remainder. -/
def catFile (decompress : List Nat → Option (List Nat)) (s : Store)
    (hashSum : String) : Except GitError (List Nat) :=
  match s.find hashSum with
  | none => .error .NotFound
  | some disk =>
    match decompress disk with
    | none => .error .DecodeError
    | some plain =>
      let c := goCut plain 0
      if c.2.2 then .ok c.2.1 else .error .DecodeError

/-- The entry record `WriteTree` collects per directory child
(src/main.go:223-227). -/
structure TreeFile where
  Name : String
  Mode : Nat
  IsDir : Bool
deriving DecidableEq

/-- The mode classification in `WriteTree` (src/main.go:252-261):
symlink, then "others"-execute-bit non-directory (`Perm()%2 != 0`),
then directory, else regular file. `perm` is the low nine permission
bits (`fileinfo.Mode().Perm()`). -/
def fileMode (isSymlink : Bool) (perm : Nat) (isDir : Bool) : Nat :=
  if isSymlink = true then 120000
  else if perm % 2 ≠ 0 ∧ isDir = false then 100755
  else if isDir = true then 40000
  else 100644

/-- What `os.ReadDir` + `file.Info()` deliver for one child: name and
the mode bits `WriteTree` inspects. -/
structure DirEnt where
  name : String
  isDir : Bool
  isSymlink : Bool
  perm : Nat
deriving DecidableEq

/-- The `lines` list `WriteTree` builds before sorting: every child
except `.git`, classified by `fileMode`. -/
def mkTreeFiles (files : List DirEnt) : List TreeFile :=
  (files.filter fun f => f.name != ".git").map fun f =>
    { Name := f.name, Mode := fileMode f.isSymlink f.perm f.isDir, IsDir := f.isDir }

/-- Insert one entry into a name-ordered list. -/
def insertEntry (e : TreeFile) : List TreeFile → List TreeFile
  | [] => [e]
  | x :: xs => if e.Name ≤ x.Name then e :: x :: xs else x :: insertEntry e xs

/-- `sort.Slice(lines, ...Name < ...Name)` (src/main.go:268): produces a
permutation of the input ordered by name.  Go's sort is unspecified on
ties, but directory entry names are pairwise distinct, so on the inputs
`WriteTree` sorts the comparator determines the result uniquely; this
insertion sort realizes it. -/
def sortEntries : List TreeFile → List TreeFile
  | [] => []
  | x :: xs => insertEntry x (sortEntries xs)

/-- The tree body serialization loop (src/main.go:271-285): for each
entry, `fmt.Sprint(Mode)`, a space, the name, a NUL, then the child's
raw 20-byte digest.  `childHash` abstracts the recursive
`WriteTree`/`WriteBlob` call on `dir + "/" + Name`, a function of the
entry for a fixed parent directory. -/
def treeBody (childHash : TreeFile → List Nat) : List TreeFile → List Nat
  | [] => []
  | l :: ls =>
    natDecimal l.Mode ++ [32] ++ strBytes l.Name ++ [0] ++ childHash l
      ++ treeBody childHash ls

/-- The serialized tree-entry bytes `WriteTree` produces for a directory
listing `files`. -/
def writeTreeBody (childHash : TreeFile → List Nat) (files : List DirEnt) : List Nat :=
  treeBody childHash (sortEntries (mkTreeFiles files))

/-- How a command run terminates abnormally: a Go runtime panic from an
out-of-range slice expression, or the source's
`fmt.Fprintf(os.Stderr, ...)`-then-`os.Exit(1)` diagnostic path. -/
inductive GoFail where
  | panicSliceOutOfRange
  | exitWith (msg : String)
deriving DecidableEq

theorem goCut_rest_lt : ∀ (xs : List Nat) (sep : Nat), xs ≠ [] →
    ((goCut xs sep).2.1).length < xs.length
  | [], _, h => absurd rfl h
  | x :: xs, sep, _ => by
    by_cases hx : x = sep
    · simp [goCut, hx]
    · simp only [goCut, if_neg hx]
      cases xs with
      | nil => simp [goCut]
      | cons y ys =>
        have ih := goCut_rest_lt (y :: ys) sep (by simp)
        calc ((goCut (y :: ys) sep).2.1).length < (y :: ys).length := ih
          _ < (x :: y :: ys).length := by simp

/-- The `ls-tree` parsing loop (src/main.go:214-220) on the bytes after
the header: while the body is nonempty, cut at the first NUL, take the
part of the head after the first space as the name, then advance with
`body = body[20:]` — a slice expression that panics when fewer than 20
bytes remain.  Returns the names printed, or the abnormal
termination. -/
def lsTreeLoop (body : List Nat) : Except GoFail (List String) :=
  if hb : body = [] then .ok []
  else
    if ((goCut body 0).2.1).length < 20 then .error .panicSliceOutOfRange
    else
      match lsTreeLoop (((goCut body 0).2.1).drop 20) with
      | .error e => .error e
      | .ok names => .ok (bytesToStr ((goCut (goCut body 0).1 32).2.1) :: names)
termination_by body.length
decreasing_by
  simp only [List.length_drop]
  exact lt_of_le_of_lt (Nat.sub_le _ _) (goCut_rest_lt body 0 hb)

/-- Hard-coded committer identity in `CommitTree` (src/main.go:311-313). -/
def commitAuthor : String := "Florian Laporte"

/-- Hard-coded committer mail in `CommitTree`. -/
def commitAuthorMail : String := "<florianl@florianl.dev>"

/-- Hard-coded timezone offset in `CommitTree`. -/
def commitTimezone : String := "+0100"

/-- The commit record `CommitTree` (src/main.go:309-321) accumulates:
tree and parent lines, author and committer lines with the hard-coded
identity and the `time.Now().Unix()` reading `timestamp`, a blank line,
the message, and an unconditional final newline (`WriteRune`). -/
def commitBody (treeSHA parentCommitSHA msg : String) (timestamp : Nat) : List Nat :=
  strBytes ("tree " ++ treeSHA ++ "\nparent " ++ parentCommitSHA ++ "\n")
    ++ (strBytes ("author " ++ commitAuthor ++ " " ++ commitAuthorMail ++ " ")
      ++ natDecimal timestamp ++ strBytes (" " ++ commitTimezone ++ "\n"))
    ++ (strBytes ("committer " ++ commitAuthor ++ " " ++ commitAuthorMail ++ " ")
      ++ natDecimal timestamp ++ strBytes (" " ++ commitTimezone ++ "\n\n"))
    ++ strBytes msg ++ [10]

/-- `CommitTree` end to end: build the record, prepend the
`commit <len>` NUL header, hash, store. -/
def commitTree (digest compress : List Nat → List Nat)
    (treeSHA parentCommitSHA msg : String) (ts : Nat) (s : Store) : List Nat × Store :=
  putObject digest compress .commit (commitBody treeSHA parentCommitSHA msg ts) s

/-- The file system as the `commit` path reads it: path ↦ contents, or
`none` when `os.ReadFile` fails (in which case it returns a `nil` byte
slice alongside the error). -/
abbrev FS := String → Option (List Nat)

/-- Go slice expression `xs[lo:hi]`: panics (`none`) unless
`lo ≤ hi ≤ len(xs)`. -/
def goSliceRange (xs : List Nat) (lo : Nat) (hi : Int) : Option (List Nat) :=
  if hi < lo ∨ hi > xs.length then none
  else some ((xs.take hi.toNat).drop lo)

/-- The HEAD-resolution part of `Commit` (src/main.go:349-360): read
`.git/HEAD`, slice off the `ref: ` keyword and trailing newline to get
the branch ref path, read that file, and — crucially — apply
`HEADsha[:len(HEADsha)-1]` to the returned bytes *before* checking the
read error, so a failed read (zero-length result) hits the slice panic
rather than the "Error resolving HEAD ref" diagnostic. -/
def resolveHEAD (fs : FS) : Except GoFail String :=
  match fs ".git/HEAD" with
  | none => .error (.exitWith "Error reading HEAD file")
  | some headFile =>
    match goSliceRange headFile 5 ((headFile.length : Int) - 1) with
    | none => .error .panicSliceOutOfRange
    | some refBytes =>
      let read : List Nat × Bool :=
        match fs (".git/" ++ bytesToStr refBytes) with
        | some d => (d, false)
        | none => ([], true)
      match goSliceRange read.1 0 ((read.1.length : Int) - 1) with
      | none => .error .panicSliceOutOfRange
      | some sha =>
        if read.2 then .error (.exitWith "Error resolving HEAD ref")
        else .ok (bytesToStr sha)

/-- `Commit` (src/main.go:346-364): write the working tree (its id
abstracted here as `treeSHA`, the store side effects folded into `s`),
resolve the parent from the current branch ref, then `CommitTree` with
the ambient clock reading `ts`. -/
def commitOp (digest compress : List Nat → List Nat) (fs : FS)
    (treeSHA msg : String) (ts : Nat) (s : Store) : Except GoFail (List Nat × Store) :=
  match resolveHEAD fs with
  | .error e => .error e
  | .ok parent => .ok (commitTree digest compress treeSHA parent msg ts s)

/-! ### Supporting lemmas -/

theorem natDecimalAux_range : ∀ (fuel n : Nat) (acc : List Nat),
    (∀ b ∈ acc, 48 ≤ b ∧ b ≤ 57) → ∀ b ∈ natDecimalAux fuel n acc, 48 ≤ b ∧ b ≤ 57
  | 0, _, _, hacc => hacc
  | fuel + 1, n, acc, hacc => by
    simp only [natDecimalAux]
    by_cases h : n < 10
    · rw [if_pos h]
      intro b hb
      rcases List.mem_cons.1 hb with rfl | hb
      · omega
      · exact hacc b hb
    · rw [if_neg h]
      refine natDecimalAux_range fuel (n / 10) _ ?_
      intro b hb
      rcases List.mem_cons.1 hb with rfl | hb
      · have := Nat.mod_lt n (show 0 < 10 by omega)
        omega
      · exact hacc b hb

theorem natDecimal_range (n : Nat) : ∀ b ∈ natDecimal n, 48 ≤ b ∧ b ≤ 57 :=
  natDecimalAux_range (n + 1) n [] (by intro b hb; simp at hb)

theorem kindStr_bytes_ne_zero (k : Kind) : ∀ b ∈ strBytes k.str, b ≠ 0 := by
  cases k <;> decide

theorem goCut_append : ∀ (a b : List Nat) (sep : Nat), (∀ x ∈ a, x ≠ sep) →
    goCut (a ++ sep :: b) sep = (a, b, true)
  | [], b, sep, _ => by simp [goCut]
  | x :: a, b, sep, h => by
    have hx : x ≠ sep := h x (List.mem_cons_self x a)
    simp only [List.cons_append, goCut, if_neg hx, List.append_eq]
    rw [goCut_append a b sep fun y hy => h y (List.mem_cons_of_mem x hy)]

theorem goCut_not_found : ∀ (xs : List Nat) (sep : Nat), (∀ x ∈ xs, x ≠ sep) →
    (goCut xs sep).2.2 = false
  | [], _, _ => rfl
  | x :: xs, sep, h => by
    have hx : x ≠ sep := h x (List.mem_cons_self x xs)
    simp only [goCut, if_neg hx]
    exact goCut_not_found xs sep fun y hy => h y (List.mem_cons_of_mem x hy)

/-- The first NUL of a canonical encoding is the header separator: the
kind keyword, the space, and the decimal length digits are all
nonzero bytes. -/
theorem encode_goCut (k : Kind) (P : List Nat) :
    goCut (encode k P) 0 = (strBytes k.str ++ [32] ++ natDecimal P.length, P, true) := by
  have hne : ∀ x ∈ strBytes k.str ++ [32] ++ natDecimal P.length, x ≠ 0 := by
    intro x hx
    rcases List.mem_append.1 hx with hx | hx
    · rcases List.mem_append.1 hx with hx | hx
      · exact kindStr_bytes_ne_zero k x hx
      · simp at hx
        omega
    · have := natDecimal_range _ x hx
      omega
  have hshape : encode k P = (strBytes k.str ++ [32] ++ natDecimal P.length) ++ 0 :: P := by
    simp [encode, List.append_assoc]
  rw [hshape, goCut_append _ _ _ hne]

theorem store_find_cons_self (name : String) (c : List Nat) (s : Store) :
    Store.find ((name, c) :: s) name = some c := by
  simp [Store.find, List.lookup]

/-! ### Claims C1, C2, C3, C5 -/

/-- Claim C1: the blob write path computes the object id as the digest of
the canonical encoding `"blob <n>" NUL P`; in particular the canonical
bytes of the 6-byte payload `hello\n` are the 13 bytes
`"blob 6" NUL "hello\n"`, so its id is the digest of those 13 bytes. -/
theorem C1_blob_write_canonical :
    (∀ (digest compress : List Nat → List Nat) (P : List Nat) (s : Store),
      (writeBlob digest compress P s).1 = digest (encode .blob P))
    ∧ encode .blob (strBytes "hello\n")
      = [98, 108, 111, 98, 32, 54, 0, 104, 101, 108, 108, 111, 10] := by
  constructor
  · intro digest compress P s
    rfl
  · decide

/-- Claim C2: reading back a stored object returns exactly the stored
payload: `cat-file` applied to the id returned by the write path emits
the bytes after the first NUL of the decompressed object, which are
exactly the original payload, for every kind and payload.  The zlib
round-trip is a hypothesis on the abstracted compression, and the id is
assumed not to be occupied in the prior store (content addressing makes
an occupied slot hold the same bytes in the running system). -/
theorem C2_roundtrip (digest compress : List Nat → List Nat)
    (decompress : List Nat → Option (List Nat))
    (hzlib : ∀ b, decompress (compress b) = some b)
    (k : Kind) (P : List Nat) (s : Store)
    (hfresh : s.find (hexEncode (digest (encode k P))) = none) :
    catFile decompress (putObject digest compress k P s).2
      (hexEncode (digest (encode k P))) = .ok P := by
  simp only [putObject, writeObject]
  rw [hfresh]
  simp only [catFile, store_find_cons_self, hzlib, encode_goCut]
  simp

/-- Witness for C2 at a concrete blob in an empty store, with the
compression instantiated to the identity. -/
theorem C2_roundtrip_witness :
    catFile some
      (putObject (fun b => b) (fun b => b) .blob (strBytes "hi") ([] : Store)).2
      (hexEncode (encode .blob (strBytes "hi"))) = .ok (strBytes "hi") :=
  C2_roundtrip (fun b => b) (fun b => b) some (fun _ => rfl) .blob (strBytes "hi")
    ([] : Store) rfl

theorem writeObject_idem (name : String) (c : List Nat) (s : Store) :
    writeObject name c (writeObject name c s) = writeObject name c s := by
  cases h : s.find name with
  | some v =>
    have h1 : writeObject name c s = s := by
      unfold writeObject
      rw [h]
    rw [h1, h1]
  | none =>
    have h1 : writeObject name c s = (name, c) :: s := by
      unfold writeObject
      rw [h]
    rw [h1]
    unfold writeObject
    rw [store_find_cons_self]

/-- Claim C3: `put` is idempotent create-if-absent — a second `put` of
the same kind and payload returns the same id and leaves the store
byte-identical; the `O_EXCL` "already exists" failure is absorbed inside
`WriteObject` (its `ErrExist` branch returns normally), so neither call
errors in the model, which only aborts on other I/O failures. -/
theorem C3_put_idempotent (digest compress : List Nat → List Nat) (k : Kind)
    (P : List Nat) (s : Store) :
    (putObject digest compress k P (putObject digest compress k P s).2).1
      = (putObject digest compress k P s).1
    ∧ (putObject digest compress k P (putObject digest compress k P s).2).2
      = (putObject digest compress k P s).2 := by
  refine ⟨rfl, ?_⟩
  simp only [putObject]
  exact writeObject_idem _ _ s

/-- Witness for C3: both calls on a concrete blob agree on id and
store. -/
theorem C3_put_idempotent_witness :
    (putObject (fun b => b) (fun b => b) .blob [7]
        (putObject (fun b => b) (fun b => b) .blob [7] ([] : Store)).2).1
      = (putObject (fun b => b) (fun b => b) .blob [7] ([] : Store)).1
    ∧ (putObject (fun b => b) (fun b => b) .blob [7]
        (putObject (fun b => b) (fun b => b) .blob [7] ([] : Store)).2).2
      = (putObject (fun b => b) (fun b => b) .blob [7] ([] : Store)).2 :=
  C3_put_idempotent (fun b => b) (fun b => b) .blob [7] ([] : Store)

/-- Claim C5 counterexample: a stored object whose header has an
unrecognized kind (`blump`) and a non-numeric length (`xyz`) is served
successfully by `cat-file` — the source never parses the header after
the NUL scan — where the claim demands a `DecodeError`. -/
theorem C5_counterexample :
    catFile some
      ([("ab", strBytes "blump xyz" ++ [0] ++ strBytes "DATA")] : Store) "ab"
      = .ok (strBytes "DATA") := by rfl

/-- Claim C5 (amended): `get` fails with `NotFound` when no object is
stored at the id, and with `DecodeError` when decompression fails or the
decompressed bytes contain no NUL; the header's length digits and kind
keyword are never validated. -/
theorem C5_read_errors_amended (decompress : List Nat → Option (List Nat))
    (s : Store) (id : String) :
    (s.find id = none → catFile decompress s id = .error .NotFound)
    ∧ (∀ disk, s.find id = some disk → decompress disk = none →
        catFile decompress s id = .error .DecodeError)
    ∧ (∀ disk plain, s.find id = some disk → decompress disk = some plain →
        (∀ b ∈ plain, b ≠ 0) →
        catFile decompress s id = .error .DecodeError) := by
  refine ⟨?_, ?_, ?_⟩
  · intro h
    simp only [catFile, h]
  · intro disk h1 h2
    simp only [catFile, h1, h2]
  · intro disk plain h1 h2 h3
    simp only [catFile, h1, h2, goCut_not_found plain 0 h3]
    simp

/-- Witness for the amended C5: the three error cases at concrete
stores. -/
theorem C5_read_errors_witness :
    catFile some ([] : Store) "zz" = .error .NotFound
    ∧ catFile (fun _ => none) ([("zz", [1])] : Store) "zz" = .error .DecodeError
    ∧ catFile some ([("zz", [1, 2])] : Store) "zz" = .error .DecodeError :=
  ⟨(C5_read_errors_amended some ([] : Store) "zz").1 rfl,
   (C5_read_errors_amended (fun _ => none) ([("zz", [1])] : Store) "zz").2.1
     [1] (by decide) rfl,
   (C5_read_errors_amended some ([("zz", [1, 2])] : Store) "zz").2.2
     [1, 2] [1, 2] (by decide) rfl (by decide)⟩

/-! ### Sorting lemmas for the tree builder -/

theorem insertEntry_perm (e : TreeFile) (l : List TreeFile) :
    (insertEntry e l).Perm (e :: l) := by
  induction l with
  | nil => simp [insertEntry]
  | cons x xs ih =>
    by_cases h : e.Name ≤ x.Name
    · simp [insertEntry, h]
    · simp only [insertEntry, if_neg h]
      exact (ih.cons x).trans (List.Perm.swap e x xs)

theorem sortEntries_perm (l : List TreeFile) : (sortEntries l).Perm l := by
  induction l with
  | nil => simp [sortEntries]
  | cons x xs ih =>
    exact (insertEntry_perm x (sortEntries xs)).trans (ih.cons x)

theorem insertEntry_sorted (e : TreeFile) (l : List TreeFile)
    (h : l.Pairwise fun a b => a.Name ≤ b.Name) :
    (insertEntry e l).Pairwise fun a b => a.Name ≤ b.Name := by
  induction l with
  | nil => simp [insertEntry]
  | cons x xs ih =>
    rcases List.pairwise_cons.1 h with ⟨hx, hxs⟩
    by_cases he : e.Name ≤ x.Name
    · simp only [insertEntry, if_pos he]
      refine List.pairwise_cons.2 ⟨?_, h⟩
      intro b hb
      rcases List.mem_cons.1 hb with rfl | hb
      · exact he
      · exact le_trans he (hx b hb)
    · simp only [insertEntry, if_neg he]
      refine List.pairwise_cons.2 ⟨?_, ih hxs⟩
      intro b hb
      rcases List.mem_cons.1 ((insertEntry_perm e xs).mem_iff.1 hb) with rfl | hb
      · exact le_of_not_le he
      · exact hx b hb

theorem sortEntries_sorted (l : List TreeFile) :
    (sortEntries l).Pairwise fun a b => a.Name ≤ b.Name := by
  induction l with
  | nil => simp [sortEntries]
  | cons x xs ih => exact insertEntry_sorted x (sortEntries xs) ih

/-- The order entries are compared in: strictly below by name, or the
same entry.  Antisymmetric, which is what uniqueness of the sorted
permutation needs. -/
def entryRel (a b : TreeFile) : Prop := a.Name < b.Name ∨ a = b

theorem entryRel_antisymm : ∀ a b : TreeFile, entryRel a b → entryRel b a → a = b := by
  intro a b hab hba
  rcases hab with h | h
  · rcases hba with h' | h'
    · exact absurd h' (lt_asymm h)
    · exact h'.symm
  · exact h

theorem sorted_entryRel (l : List TreeFile)
    (hs : l.Pairwise fun a b => a.Name ≤ b.Name)
    (hn : (l.map TreeFile.Name).Nodup) :
    l.Pairwise entryRel := by
  have hne : l.Pairwise fun a b => a.Name ≠ b.Name := by
    rw [List.Nodup, List.pairwise_map] at hn
    exact hn
  exact (hs.and hne).imp fun h => Or.inl (lt_of_le_of_ne h.1 h.2)

/-- Two name-sorted lists over duplicate-free names that are
permutations of one another are equal. -/
theorem sorted_perm_nodup_eq (l1 l2 : List TreeFile)
    (hp : l1.Perm l2)
    (h1 : l1.Pairwise fun a b => a.Name ≤ b.Name)
    (h2 : l2.Pairwise fun a b => a.Name ≤ b.Name)
    (hn : (l1.map TreeFile.Name).Nodup) : l1 = l2 := by
  have hn2 : (l2.map TreeFile.Name).Nodup := (hp.map TreeFile.Name).nodup hn
  haveI : IsAntisymm TreeFile entryRel := ⟨entryRel_antisymm⟩
  exact List.eq_of_perm_of_sorted hp (sorted_entryRel l1 h1 hn) (sorted_entryRel l2 h2 hn2)

theorem mkTreeFiles_perm (l1 l2 : List DirEnt) (hp : l1.Perm l2) :
    (mkTreeFiles l1).Perm (mkTreeFiles l2) :=
  (hp.filter _).map _

theorem mkTreeFiles_names_nodup (l : List DirEnt)
    (hn : (l.map DirEnt.name).Nodup) :
    ((mkTreeFiles l).map TreeFile.Name).Nodup := by
  have hfm : (mkTreeFiles l).map TreeFile.Name
      = (l.filter fun f => f.name != ".git").map DirEnt.name := by
    simp [mkTreeFiles, List.map_map]
  rw [hfm]
  exact hn.sublist ((List.filter_sublist l).map DirEnt.name)

/-! ### Claims C4, C6 -/

/-- Claim C4: the serialized tree entry list is in strictly ascending
byte-wise name order, and building a tree from the same directory
children presented in any permutation yields byte-identical serialized
output.  (Lean's `String` order compares Unicode code points; on the
bytes in question this is Go's byte-wise `<` on names, both agreeing on
ASCII and, for UTF-8, code-point order agreeing with byte order.) -/
theorem C4_tree_sorted_deterministic (files1 files2 : List DirEnt)
    (childHash : TreeFile → List Nat)
    (hp : files1.Perm files2)
    (hn : (files1.map DirEnt.name).Nodup) :
    writeTreeBody childHash files1 = writeTreeBody childHash files2
    ∧ (sortEntries (mkTreeFiles files1)).Pairwise fun a b => a.Name < b.Name := by
  have hmk := mkTreeFiles_perm files1 files2 hp
  have hn1 := mkTreeFiles_names_nodup files1 hn
  have hperm1 := sortEntries_perm (mkTreeFiles files1)
  have hperm2 := sortEntries_perm (mkTreeFiles files2)
  have hns : ((sortEntries (mkTreeFiles files1)).map TreeFile.Name).Nodup :=
    ((hperm1.map TreeFile.Name).symm).nodup hn1
  have heq : sortEntries (mkTreeFiles files1) = sortEntries (mkTreeFiles files2) :=
    sorted_perm_nodup_eq _ _ (hperm1.trans (hmk.trans hperm2.symm))
      (sortEntries_sorted _) (sortEntries_sorted _) hns
  constructor
  · unfold writeTreeBody
    rw [heq]
  · have hs := sortEntries_sorted (mkTreeFiles files1)
    rw [List.Nodup, List.pairwise_map] at hns
    exact (hs.and hns).imp fun h => lt_of_le_of_ne h.1 h.2

/-- Witness for C4: two enumeration orders of the same two-file
directory serialize identically and come out strictly sorted. -/
theorem C4_tree_sorted_witness :
    writeTreeBody (fun _ => List.replicate 20 0)
      [⟨"b.txt", false, false, 420⟩, ⟨"a.txt", false, false, 420⟩]
      = writeTreeBody (fun _ => List.replicate 20 0)
        [⟨"a.txt", false, false, 420⟩, ⟨"b.txt", false, false, 420⟩]
    ∧ (sortEntries (mkTreeFiles
        [⟨"b.txt", false, false, 420⟩, ⟨"a.txt", false, false, 420⟩])).Pairwise
        fun a b => a.Name < b.Name :=
  C4_tree_sorted_deterministic _ _ (fun _ => List.replicate 20 0)
    (by decide) (by decide)

/-- Spec-side predicate (from the claim's words, not the source): any of
the three execute permission bits — owner, group, or other (0o111 = 73)
— is set. -/
def hasAnyExecBit (perm : Nat) : Bool := perm &&& 73 != 0

/-- Claim C6 counterexample: a non-directory, non-symlink file with
permissions 0o700 (= 448) has an execute bit set (owner), yet the
source's classification — which tests only `Perm()%2`, the
others-execute bit — yields regular-file mode 100644, not 100755. -/
theorem C6_counterexample :
    hasAnyExecBit 448 = true ∧ fileMode false 448 false = 100644 := by decide

/-- Claim C6 (amended): a non-directory, non-symlink file is classified
as executable mode 100755 exactly when the others-execute bit (the
lowest permission bit) is set, and as regular mode 100644 otherwise;
owner and group execute bits are not consulted. -/
theorem C6_exec_mode_amended (perm : Nat) :
    fileMode false perm false = if perm % 2 = 1 then 100755 else 100644 := by
  rcases Nat.mod_two_eq_zero_or_one perm with h | h <;> simp [fileMode, h]

/-! ### Claims C7, C8, C9, C10 -/

/-- Claim C7: the source slices `body[20:]` with no bounds check, so a
tree payload truncated mid-record — here one record whose digest is only
2 bytes instead of 20 — makes `ls-tree` terminate with the slice
out-of-range runtime panic, not a reported `DecodeError`. -/
theorem C7_truncated_tree_panics :
    lsTreeLoop (strBytes "100644 a" ++ 0 :: [1, 2]) = .error .panicSliceOutOfRange := by
  have hcut : goCut (strBytes "100644 a" ++ 0 :: [1, 2]) 0
      = (strBytes "100644 a", [1, 2], true) := goCut_append _ _ _ (by decide)
  rw [lsTreeLoop]
  rw [dif_neg (by decide : ¬ strBytes "100644 a" ++ 0 :: [1, 2] = [])]
  rw [hcut]
  simp

/-- The bytes `CommitTree` writes before the message: the tree and
parent lines and the author/committer lines with the hard-coded identity
and the clock reading, ending in the blank separator line. -/
def commitBodyLeadIn (treeSHA parentCommitSHA : String) (timestamp : Nat) : List Nat :=
  strBytes ("tree " ++ treeSHA ++ "\nparent " ++ parentCommitSHA ++ "\n")
    ++ (strBytes ("author " ++ commitAuthor ++ " " ++ commitAuthorMail ++ " ")
      ++ natDecimal timestamp ++ strBytes (" " ++ commitTimezone ++ "\n"))
    ++ (strBytes ("committer " ++ commitAuthor ++ " " ++ commitAuthorMail ++ " ")
      ++ natDecimal timestamp ++ strBytes (" " ++ commitTimezone ++ "\n\n"))

/-- Claim C8 counterexample: for the already newline-terminated message
`"hi\n"` the stored commit payload ends in two newline bytes — the
source appends its final newline unconditionally — where the claim says
a doubled newline never occurs. -/
theorem C8_counterexample :
    [10, 10].isSuffixOf (commitBody "t" "p" "hi\n" 0) = true := by decide

/-- Claim C8 (amended): the commit payload is the header lines followed
by the message bytes and one unconditionally appended newline,
regardless of whether the message is already newline-terminated (so a
newline-terminated message yields a doubled newline). -/
theorem C8_newline_always_appended (treeSHA parentCommitSHA msg : String) (ts : Nat) :
    commitBody treeSHA parentCommitSHA msg ts
      = commitBodyLeadIn treeSHA parentCommitSHA ts ++ (strBytes msg ++ [10]) := by
  simp [commitBody, commitBodyLeadIn, List.append_assoc]

/-- Claim C9 counterexample: two `commit-tree` invocations with
identical tree id, parent id, and message — everything the caller can
supply — produce different payloads when the ambient clock reading
differs, so the payload is not a function of caller-supplied inputs
alone (the timestamp is read from the clock inside the function, and the
identity cannot be supplied at all). -/
theorem C9_counterexample :
    commitBody "t" "p" "m" 0 ≠ commitBody "t" "p" "m" 1 := by decide

/-- Claim C9 (amended): `CommitTree` is a pure formatting function of
(tree id, parent id, message) and the ambient clock reading; the
identity `Florian Laporte <florianl@florianl.dev>` and timezone `+0100`
are hard-coded constants rather than caller-supplied parameters, and the
timestamp comes from `time.Now()`, not from an argument. -/
theorem C9_commit_formatting_amended (treeSHA parentCommitSHA msg : String) (ts : Nat) :
    commitBody treeSHA parentCommitSHA msg ts
      = strBytes ("tree " ++ treeSHA ++ "\nparent " ++ parentCommitSHA ++ "\n")
        ++ (strBytes "author Florian Laporte <florianl@florianl.dev> "
          ++ natDecimal ts ++ strBytes " +0100\n")
        ++ (strBytes "committer Florian Laporte <florianl@florianl.dev> "
          ++ natDecimal ts ++ strBytes " +0100\n\n")
        ++ strBytes msg ++ [10] := by
  have h1 : "author " ++ commitAuthor ++ " " ++ commitAuthorMail ++ " "
      = "author Florian Laporte <florianl@florianl.dev> " := by decide
  have h2 : "committer " ++ commitAuthor ++ " " ++ commitAuthorMail ++ " "
      = "committer Florian Laporte <florianl@florianl.dev> " := by decide
  have h3 : " " ++ commitTimezone ++ "\n" = " +0100\n" := by decide
  have h4 : " " ++ commitTimezone ++ "\n\n" = " +0100\n\n" := by decide
  unfold commitBody
  rw [h1, h2, h3, h4]

/-- Claim C10: in `Commit`, when `.git/HEAD` is readable but the branch
ref file it names cannot be read, the zero-length read result is sliced
`HEADsha[:len(HEADsha)-1]` before the read error is checked, so the
command terminates with the out-of-range slice panic and never reaches
the "Error resolving HEAD ref" diagnostic path. -/
theorem C10_commit_panics_on_unreadable_ref (digest compress : List Nat → List Nat)
    (fs : FS) (treeSHA msg : String) (ts : Nat) (s : Store) (headFile : List Nat)
    (h1 : fs ".git/HEAD" = some headFile)
    (h2 : (5 : Int) ≤ (headFile.length : Int) - 1)
    (h3 : fs (".git/" ++ bytesToStr ((headFile.take (headFile.length - 1)).drop 5)) = none) :
    commitOp digest compress fs treeSHA msg ts s = .error .panicSliceOutOfRange
    ∧ commitOp digest compress fs treeSHA msg ts s
      ≠ .error (.exitWith "Error resolving HEAD ref") := by
  have hlen : ((headFile.length : Int) - 1).toNat = headFile.length - 1 := by omega
  have hslice1 : goSliceRange headFile 5 ((headFile.length : Int) - 1)
      = some ((headFile.take (headFile.length - 1)).drop 5) := by
    unfold goSliceRange
    rw [hlen]
    split
    next hc => exfalso; omega
    next hc => rfl
  have hres : resolveHEAD fs = .error .panicSliceOutOfRange := by
    unfold resolveHEAD
    rw [h1]
    simp only [hslice1, h3]
    norm_num [goSliceRange]
  constructor
  · unfold commitOp
    rw [hres]
  · unfold commitOp
    rw [hres]
    simp

/-- Witness for C10: a fresh repository — `.git/HEAD` points at
`refs/heads/master`, which does not exist — panics instead of reporting
the resolve error. -/
theorem C10_commit_panics_witness :
    commitOp (fun b => b) (fun b => b)
      (fun p => if p = ".git/HEAD" then some (strBytes "ref: refs/heads/master\n") else none)
      "T" "msg" 0 ([] : Store) = .error .panicSliceOutOfRange
    ∧ commitOp (fun b => b) (fun b => b)
      (fun p => if p = ".git/HEAD" then some (strBytes "ref: refs/heads/master\n") else none)
      "T" "msg" 0 ([] : Store) ≠ .error (.exitWith "Error resolving HEAD ref") :=
  C10_commit_panics_on_unreadable_ref (fun b => b) (fun b => b)
    (fun p => if p = ".git/HEAD" then some (strBytes "ref: refs/heads/master\n") else none)
    "T" "msg" 0 ([] : Store) (strBytes "ref: refs/heads/master\n")
    (by simp) (by decide) (by decide)

end DiyGit
